import Mathlib

/-!
Shallow embedding of the CVE-matching engine of `pysec` (`pysec/cve_manager.py`):
the version comparator `CveManager._compare_versions`, the feed parser
`CveManager._parse`, and the query method `CveManager.get_cves`, together with
proofs of the specified properties.

Python strings are modelled as lists of characters (`PyStr`), restricted to the
ASCII fragment: `str.lower` and `str.isdigit` are modelled with their ASCII
behaviour, which covers every string the engine is specified over (package
names, CPE identifiers and dotted-numeric version strings).
-/

namespace Pysec

/-- Model of a Python string: a list of characters (ASCII fragment). -/
abbrev PyStr := List Char

/-- Conversion from a Lean string literal to the Python-string model. -/
def pys (s : String) : PyStr := s.data

/-- Model of Python `str.lower` on one character (ASCII fragment):
uppercase letters map to lowercase, all other characters are unchanged. -/
def toLowerCh (c : Char) : Char :=
  if 65 ≤ c.toNat ∧ c.toNat ≤ 90 then Char.ofNat (c.toNat + 32) else c

/-- Model of Python `str.lower` (ASCII fragment). -/
def pyLower (s : PyStr) : PyStr := s.map toLowerCh

/-- Model of Python `str.split(sep)` for a one-character separator `c`:
splits at every occurrence of `c`, keeping empty pieces, and returns `[""]`
on the empty string (the result is never the empty list). -/
def splitOnChar (c : Char) : PyStr → List PyStr
  | [] => [[]]
  | x :: xs =>
    let r := splitOnChar c xs
    if x = c then [] :: r
    else
      match r with
      | [] => [[x]]
      | h :: t => (x :: h) :: t

/-- Decides whether a character is an ASCII decimal digit. -/
def isAsciiDigit (c : Char) : Bool := '0' ≤ c && c ≤ '9'

/-- Model of Python `str.isdigit` (ASCII fragment): true exactly on nonempty
all-digit strings. -/
def strIsDigit (s : PyStr) : Bool := !s.isEmpty && s.all isAsciiDigit

/-- Numeric value of an all-digit string, most significant digit first. -/
def digitsToNat (s : PyStr) : Nat :=
  s.foldl (fun n c => 10 * n + (c.toNat - '0'.toNat)) 0

/-- Model of Python `int(s)` on the fragment the comparator reaches: the call
sites guard every argument with `str.isdigit`, so only the all-digit case is
ever exercised; on anything else `int` raises, modelled by `none`. -/
def pyInt (s : PyStr) : Option Int :=
  if strIsDigit s then some (digitsToNat s : Int) else none

/-- Sequential evaluation of `int(part)` over a list of parts, as the list
comprehension in `normalize` does; an exception in any element propagates. -/
def mapPyInt : List PyStr → Option (List Int)
  | [] => some []
  | s :: rest =>
    match pyInt s with
    | none => none
    | some n =>
      match mapPyInt rest with
      | none => none
      | some ns => some (n :: ns)

/-- Model of `normalize` inside `CveManager._compare_versions`:
`[int(part) for part in v.split(".") if part.isdigit()]`. -/
def normalize (v : PyStr) : Option (List Int) :=
  mapPyInt ((splitOnChar '.' v).filter strIsDigit)

/-- Right-pads a list with zeros to length `n` (`parts += [0] * (n - len)`). -/
def padTo (n : Nat) (xs : List Int) : List Int :=
  xs ++ List.replicate (n - xs.length) 0

/-- Element-wise comparison loop of `_compare_versions`: walk the zip of the
two lists, return at the first unequal pair, else 0. -/
def cmpLists : List Int → List Int → Int
  | a :: as_, b :: bs =>
    if a < b then -1
    else if a > b then 1
    else cmpLists as_ bs
  | _, _ => 0

/-- Model of `CveManager._compare_versions`; `none` models an escaping
exception (never produced, as proven below). -/
def compareVersions (v1 v2 : PyStr) : Option Int :=
  match normalize v1, normalize v2 with
  | some parts1, some parts2 =>
    let length := max parts1.length parts2.length
    some (cmpLists (padTo length parts1) (padTo length parts2))
  | _, _ => none

/-! Feed document model. Each JSON object of the fixed feed shape becomes a
structure whose fields are `Option`-valued, mirroring that any key may be
absent from the dictionary: a bracket access `d[k]` on a missing key raises
(modelled by `Option` propagation), while `d.get(k, default)` is modelled by
`Option.getD`. -/

/-- Entry of `description_data`; field `value`. -/
structure DescData where
  value : Option PyStr
deriving DecidableEq, Repr

/-- Object `cve.description`; field `description_data`. -/
structure Description where
  description_data : Option (List DescData)
deriving DecidableEq, Repr

/-- Object `cve.CVE_data_meta`; field `ID`. -/
structure CveMeta where
  ID : Option PyStr
deriving DecidableEq, Repr

/-- Object `cve` of a feed item. -/
structure CveSection where
  CVE_data_meta : Option CveMeta
  description : Option Description
deriving DecidableEq, Repr

/-- Object `impact.baseMetricV3.cvssV3`; field `baseSeverity`. -/
structure CvssV3 where
  baseSeverity : Option PyStr
deriving DecidableEq, Repr

/-- Object `impact.baseMetricV3`; field `cvssV3`. -/
structure BaseMetricV3 where
  cvssV3 : Option CvssV3
deriving DecidableEq, Repr

/-- Object `impact.baseMetricV2`; field `severity`. -/
structure BaseMetricV2 where
  severity : Option PyStr
deriving DecidableEq, Repr

/-- Object `impact` of a feed item. -/
structure Impact where
  baseMetricV3 : Option BaseMetricV3
  baseMetricV2 : Option BaseMetricV2
deriving DecidableEq, Repr

/-- Entry of a node's `cpe_match` list. -/
structure CpeMatch where
  vulnerable : Option Bool
  cpe23Uri : Option PyStr
  versionStartIncluding : Option PyStr
  versionEndExcluding : Option PyStr
deriving DecidableEq, Repr

/-- Entry of `configurations.nodes`; field `cpe_match`. -/
structure CfgNode where
  cpe_match : Option (List CpeMatch)
deriving DecidableEq, Repr

/-- Object `configurations` of a feed item. -/
structure Configurations where
  nodes : Option (List CfgNode)
deriving DecidableEq, Repr

/-- One entry of `CVE_Items`. -/
structure CveItem where
  cve : Option CveSection
  impact : Option Impact
  configurations : Option Configurations
deriving DecidableEq, Repr

/-- Top-level feed document; field `CVE_Items`. -/
structure FeedDoc where
  CVE_Items : Option (List CveItem)
deriving DecidableEq, Repr

/-- One value of `CveManager.cve_data[pkg]`: the tuple
`(cve_id, desc, severity, version_start, version_end)`. -/
structure Record where
  cve_id : PyStr
  desc : PyStr
  severity : PyStr
  version_start : Option PyStr
  version_end : Option PyStr
deriving DecidableEq, Repr

/-- Model of `CveManager.cve_data`: a `defaultdict(list)` keyed by package
name, as an association list with distinct keys in insertion order. -/
abbrev Index := List (PyStr × List Record)

/-- Model of `self.cve_data.get(k, [])`: first value stored under `k`, else
the empty list. -/
def lookupIdx (idx : Index) (k : PyStr) : List Record :=
  match idx with
  | [] => []
  | (k', v) :: rest => if k' = k then v else lookupIdx rest k

/-- Model of `self.cve_data[k].append(r)` on a `defaultdict(list)`: extends
the list under `k`, creating the key (at the end) when absent. -/
def appendRecord (idx : Index) (k : PyStr) (r : Record) : Index :=
  match idx with
  | [] => [(k, [r])]
  | (k', v) :: rest =>
    if k' = k then (k', v ++ [r]) :: rest
    else (k', v) :: appendRecord rest k r

/-- Constant `CPE_LEN = 4` of `cve_manager.py`. -/
def CPE_LEN : Nat := 4

/-- Severity determination of `CveManager._parse` (lines 55-64): branch on
presence of the `baseMetricV3` key, else on `baseMetricV2`, defaulting every
inner `.get` to the running default `"UNKNOWN"`. -/
def severityOf (impact : Impact) : PyStr :=
  match impact.baseMetricV3, impact.baseMetricV2 with
  | some m3, _ => ((m3.cvssV3.getD ⟨none⟩).baseSeverity).getD (pys "UNKNOWN")
  | none, some m2 => m2.severity.getD (pys "UNKNOWN")
  | none, none => pys "UNKNOWN"

/-- Records contributed by one `cpe_match` entry (lines 68-76): only entries
flagged vulnerable, whose `cpe23Uri` (defaulting to `""`) splits on `:` into
more than `CPE_LEN` fields, yield the pair of the lower-cased field at index
`CPE_LEN` and the record tuple. -/
def recordsOfMatch (cve_id desc severity : PyStr) (cpe : CpeMatch) :
    List (PyStr × Record) :=
  if cpe.vulnerable = some true then
    let cpe_parts := splitOnChar ':' (cpe.cpe23Uri.getD [])
    if cpe_parts.length > CPE_LEN then
      [(pyLower (cpe_parts.getD CPE_LEN []),
        ⟨cve_id, desc, severity, cpe.versionStartIncluding,
         cpe.versionEndExcluding⟩)]
    else []
  else []

/-- Processing of one `CVE_Items` entry: the bracket accesses
`item["cve"]["CVE_data_meta"]["ID"]` and
`item["cve"]["description"]["description_data"][0]["value"]` raise on a
missing key or empty list (`none`); the severity and configuration walks use
defaulted `.get` access and never raise. -/
def parseItem (item : CveItem) : Option (List (PyStr × Record)) :=
  match item.cve with
  | none => none
  | some cveSec =>
    match cveSec.CVE_data_meta with
    | none => none
    | some meta =>
      match meta.ID with
      | none => none
      | some cve_id =>
        match cveSec.description with
        | none => none
        | some descSec =>
          match descSec.description_data with
          | none => none
          | some dd =>
            match dd.head? with
            | none => none
            | some d0 =>
              match d0.value with
              | none => none
              | some desc =>
                let severity := severityOf (item.impact.getD ⟨none, none⟩)
                let nodes := ((item.configurations.getD ⟨none⟩).nodes).getD []
                some (nodes.flatMap fun node =>
                  (node.cpe_match.getD []).flatMap
                    (recordsOfMatch cve_id desc severity))

/-- Folds one item's records into the index in order. -/
def insertRecords (idx : Index) (recs : List (PyStr × Record)) : Index :=
  recs.foldl (fun i kr => appendRecord i kr.1 kr.2) idx

/-- Iteration of `CveManager._parse` over a list of feed items: each item is
processed in order and its records appended to `cve_data`; an exception while
processing an item aborts the whole parse (`none`). -/
def parseInto (idx : Index) : List CveItem → Option Index
  | [] => some idx
  | item :: rest =>
    match parseItem item with
    | none => none
    | some recs => parseInto (insertRecords idx recs) rest

/-- Model of `CveManager._parse` on a loaded feed document:
`data.get("CVE_Items", [])`. -/
def parseDoc (idx : Index) (doc : FeedDoc) : Option Index :=
  parseInto idx (doc.CVE_Items.getD [])

/-- Projection of a stored record to the query result tuple
`(cve_id, desc, severity)`. -/
def projRecord (r : Record) : PyStr × PyStr × PyStr :=
  (r.cve_id, r.desc, r.severity)

/-- End-bound test of `get_cves` (lines 119-120): skip the record when
`version_end` is truthy and `compare(version, version_end) >= 0`; `none`
models an exception escaping `_compare_versions`. -/
def keepEnd (v : PyStr) (r : Record) : Option Bool :=
  match r.version_end with
  | some ve =>
    if ve.isEmpty then some true
    else
      match compareVersions v ve with
      | none => none
      | some c => if 0 ≤ c then some false else some true
  | none => some true

/-- Range test of the versioned branch of `get_cves` (lines 117-120): skip
when `version_start` is truthy and `compare(version, version_start) < 0`,
then apply the end-bound test; `none` models an exception, which the
surrounding `try`/`except` turns into exclusion. -/
def keepRecord (v : PyStr) (r : Record) : Option Bool :=
  match r.version_start with
  | some vs =>
    if vs.isEmpty then keepEnd v r
    else
      match compareVersions v vs with
      | none => none
      | some c => if c < 0 then some false else keepEnd v r
  | none => keepEnd v r

/-- Model of `CveManager.get_cves`: probe the full lower-cased key and the
base key `pkg.lower().split("-")[0]`, concatenate, then either project all
records (no version) or keep those passing the range test, excluding any
record whose test raises. -/
def get_cves (idx : Index) (pkg : PyStr) (version : Option PyStr) :
    List (PyStr × PyStr × PyStr) :=
  let name := (splitOnChar '-' (pyLower pkg)).headD []
  let entries := lookupIdx idx (pyLower pkg) ++ lookupIdx idx name
  match version with
  | none => entries.map projRecord
  | some v =>
    (entries.filter fun r => (keepRecord v r).getD false).map projRecord

/-! Specification-side definitions: reformulations of parts of the spec's
wording, to be compared with the code-derived definitions above. -/

/-- Base-heuristic key in the spec's wording: the full lower-cased name
truncated at the first hyphen. -/
def baseKey (pkg : PyStr) : PyStr := (pyLower pkg).takeWhile (fun x => x != '-')

/-- Retention condition exactly as claim C1 words it: `version_start` absent
or `compare(version, version_start) >= 0`, and `version_end` absent or
`compare(version, version_end) < 0` (false if the comparison raises). -/
def claimKeep (v : PyStr) (r : Record) : Bool :=
  (match r.version_start with
   | none => true
   | some vs =>
     match compareVersions v vs with
     | some c => decide (0 ≤ c)
     | none => false)
  && (match r.version_end with
   | none => true
   | some ve =>
     match compareVersions v ve with
     | some c => decide (c < 0)
     | none => false)

/-- Start-bound condition of the amended claim C1: `version_start` absent or
empty, or `compare(version, version_start) >= 0`. -/
def amendedStartOk (v : PyStr) (r : Record) : Bool :=
  match r.version_start with
  | none => true
  | some vs =>
    vs.isEmpty ||
      (match compareVersions v vs with
       | some c => decide (0 ≤ c)
       | none => false)

/-- End-bound condition of the amended claim C1: `version_end` absent or
empty, or `compare(version, version_end) < 0`. -/
def amendedEndOk (v : PyStr) (r : Record) : Bool :=
  match r.version_end with
  | none => true
  | some ve =>
    ve.isEmpty ||
      (match compareVersions v ve with
       | some c => decide (c < 0)
       | none => false)

/-- Retention condition of the amended claim C1. -/
def amendedKeep (v : PyStr) (r : Record) : Bool :=
  amendedStartOk v r && amendedEndOk v r

/-- Well-formedness of a feed item at top level: the CVE id and the first
description value are reachable, so none of the bracket accesses of
`_parse` raises. -/
def hasIdAndDesc (item : CveItem) : Bool :=
  match item.cve with
  | none => false
  | some cveSec =>
    (match cveSec.CVE_data_meta with
     | some meta => meta.ID.isSome
     | none => false)
    && (match cveSec.description with
     | some descSec =>
       match descSec.description_data with
       | some (d0 :: _) => d0.value.isSome
       | _ => false
     | none => false)

/-- Records of one feed item (empty when the item fails to parse). -/
def itemRecords (item : CveItem) : List (PyStr × Record) :=
  (parseItem item).getD []

/-- Records a list of feed items contributes under a given package key, in
feed order. -/
def recordsForKey (items : List CveItem) (k : PyStr) : List Record :=
  (items.flatMap itemRecords).filterMap
    fun kr => if kr.1 = k then some kr.2 else none

/-- Total normalizer: the integer values of the digit-only dot-separated
parts of a version string. -/
def normParts (v : PyStr) : List Int :=
  ((splitOnChar '.' v).filter strIsDigit).map fun s => (digitsToNat s : Int)

/-- Total version comparison: what `_compare_versions` computes when no
exception occurs. -/
def compareFn (v1 v2 : PyStr) : Int :=
  let parts1 := normParts v1
  let parts2 := normParts v2
  let length := max parts1.length parts2.length
  cmpLists (padTo length parts1) (padTo length parts2)

/-! Helper lemmas about the version comparator. -/

theorem mapPyInt_of_digits : ∀ (xs : List PyStr), (∀ s ∈ xs, strIsDigit s = true) →
    mapPyInt xs = some (xs.map fun s => (digitsToNat s : Int))
  | [], _ => rfl
  | s :: rest, h => by
    have hs : strIsDigit s = true := h s (by simp)
    have hrest := mapPyInt_of_digits rest (fun t ht => h t (by simp [ht]))
    simp [mapPyInt, pyInt, hs, hrest]

theorem normalize_eq (v : PyStr) : normalize v = some (normParts v) :=
  mapPyInt_of_digits _ (fun _s hs => (List.mem_filter.mp hs).2)

theorem compareVersions_eq (a b : PyStr) :
    compareVersions a b = some (compareFn a b) := by
  simp [compareVersions, normalize_eq, compareFn]

theorem cmpLists_mem : ∀ (xs ys : List Int),
    cmpLists xs ys = -1 ∨ cmpLists xs ys = 0 ∨ cmpLists xs ys = 1
  | [], _ => by simp [cmpLists]
  | _ :: _, [] => by simp [cmpLists]
  | a :: as_, b :: bs => by
    rw [cmpLists]
    split_ifs with h1 h2
    · simp
    · simp
    · exact cmpLists_mem as_ bs

theorem cmpLists_swap : ∀ (xs ys : List Int), cmpLists ys xs = -cmpLists xs ys
  | [], [] => by simp [cmpLists]
  | [], _ :: _ => by simp [cmpLists]
  | _ :: _, [] => by simp [cmpLists]
  | a :: as_, b :: bs => by
    rw [cmpLists, cmpLists]
    rcases lt_trichotomy a b with h | h | h
    · rw [if_neg (by omega), if_pos (by omega), if_pos h]
      simp
    · rw [if_neg (by omega), if_neg (by omega), if_neg (by omega),
        if_neg (by omega)]
      exact cmpLists_swap as_ bs
    · rw [if_pos h, if_neg (by omega : ¬a < b), if_pos (by omega : a > b)]

theorem cmpLists_self : ∀ (xs : List Int), cmpLists xs xs = 0
  | [] => by simp [cmpLists]
  | a :: as_ => by
    rw [cmpLists, if_neg (by omega), if_neg (by omega)]
    exact cmpLists_self as_

/-! Helper lemmas about splitting, lower-casing and the range test. -/

theorem splitOnChar_ne_nil (c : Char) : ∀ (s : PyStr), splitOnChar c s ≠ []
  | [] => by simp [splitOnChar]
  | x :: xs => by
    simp only [splitOnChar]
    split
    · simp
    · split <;> simp

theorem splitOnChar_headD (c : Char) : ∀ (s : PyStr),
    (splitOnChar c s).headD [] = s.takeWhile (fun x => x != c)
  | [] => rfl
  | x :: xs => by
    have ih := splitOnChar_headD c xs
    simp only [splitOnChar, List.takeWhile_cons]
    by_cases hx : x = c
    · simp [hx]
    · rw [if_neg hx]
      have hne := splitOnChar_ne_nil c xs
      rcases hr : splitOnChar c xs with _ | ⟨h0, t0⟩
      · exact absurd hr hne
      · rw [hr] at ih
        simp only [List.headD_cons] at ih
        simp [hx, ih]

theorem takeWhile_of_all {α : Type} (p : α → Bool) :
    ∀ (l : List α), (∀ x ∈ l, p x = true) → l.takeWhile p = l
  | [], _ => rfl
  | x :: xs, h => by
    have hx : p x = true := h x (by simp)
    have ih := takeWhile_of_all p xs (fun y hy => h y (by simp [hy]))
    simp [List.takeWhile_cons, hx, ih]

theorem toLowerCh_hyphen (c : Char) (h : toLowerCh c = '-') : c = '-' := by
  by_cases hc : 65 ≤ c.toNat ∧ c.toNat ≤ 90
  · exfalso
    obtain ⟨h1, h2⟩ := hc
    rw [toLowerCh, if_pos ⟨h1, h2⟩] at h
    have hvalid : (c.toNat + 32).isValidChar :=
      Or.inl (by omega : c.toNat + 32 < 55296)
    have htn : (Char.ofNat (c.toNat + 32)).toNat = c.toNat + 32 := by
      rw [Char.ofNat, dif_pos hvalid]
      rfl
    rw [h] at htn
    have h45 : ('-').toNat = 45 := rfl
    omega
  · rw [toLowerCh, if_neg hc] at h
    exact h

theorem pyLower_no_hyphen (s : PyStr) (h : '-' ∉ s) : ∀ x ∈ pyLower s, x ≠ '-' := by
  intro x hx hxe
  rcases List.mem_map.mp hx with ⟨a, ha, hae⟩
  subst hxe
  exact h (toLowerCh_hyphen a hae ▸ ha)

theorem keepEnd_eq_amended (v : PyStr) (r : Record) :
    keepEnd v r = some (amendedEndOk v r) := by
  cases hve : r.version_end with
  | none => simp [keepEnd, amendedEndOk, hve]
  | some ve =>
    by_cases he : ve.isEmpty
    · simp [keepEnd, amendedEndOk, hve, he]
    · simp only [keepEnd, amendedEndOk, hve, he, if_neg, Bool.false_or,
        compareVersions_eq]
      by_cases hc : (0 : Int) ≤ compareFn v ve
      · have hc2 : ¬compareFn v ve < 0 := by omega
        simp [hc, hc2]
      · have hc2 : compareFn v ve < 0 := by omega
        simp [hc, hc2]

theorem keepRecord_eq_amended (v : PyStr) (r : Record) :
    keepRecord v r = some (amendedKeep v r) := by
  cases hvs : r.version_start with
  | none => simp [keepRecord, amendedKeep, amendedStartOk, hvs,
      keepEnd_eq_amended]
  | some vs =>
    by_cases hs : vs.isEmpty
    · simp [keepRecord, amendedKeep, amendedStartOk, hvs, hs,
        keepEnd_eq_amended]
    · simp only [keepRecord, amendedKeep, amendedStartOk, hvs, hs, if_neg,
        Bool.false_or, compareVersions_eq]
      by_cases hc : compareFn v vs < 0
      · have hc2 : ¬(0 : Int) ≤ compareFn v vs := by omega
        simp [hc, hc2]
      · have hc2 : (0 : Int) ≤ compareFn v vs := by omega
        simp [hc, hc2, keepEnd_eq_amended]

theorem getCves_entries (idx : Index) (pkg : PyStr) (version : Option PyStr) :
    get_cves idx pkg version =
      (match version with
       | none =>
         (lookupIdx idx (pyLower pkg) ++ lookupIdx idx (baseKey pkg)).map
           projRecord
       | some v =>
         ((lookupIdx idx (pyLower pkg) ++ lookupIdx idx (baseKey pkg)).filter
           (amendedKeep v)).map projRecord) := by
  unfold get_cves baseKey
  rw [splitOnChar_headD]
  cases version with
  | none => rfl
  | some v =>
    have hfun : (fun r => (keepRecord v r).getD false) = amendedKeep v := by
      funext r
      rw [keepRecord_eq_amended]
      rfl
    simp only [hfun]

/-! Helper lemmas about the index and the parser. -/

theorem lookupIdx_appendRecord (k : PyStr) (r : Record) (k' : PyStr) :
    ∀ (idx : Index), lookupIdx (appendRecord idx k r) k' =
      if k = k' then lookupIdx idx k' ++ [r] else lookupIdx idx k'
  | [] => by
    by_cases h : k = k' <;> simp [appendRecord, lookupIdx, h]
  | (k0, v0) :: rest => by
    have ih := lookupIdx_appendRecord k r k' rest
    simp only [appendRecord]
    by_cases h0 : k0 = k
    · subst h0
      by_cases h1 : k0 = k'
      · subst h1
        simp [lookupIdx]
      · simp [lookupIdx, h1]
    · by_cases h1 : k0 = k'
      · subst h1
        have : ¬k = k0 := fun he => h0 he.symm
        simp [lookupIdx, this, h0]
      · simp [lookupIdx, h0, h1, ih]

theorem lookupIdx_insertRecords (k : PyStr) :
    ∀ (recs : List (PyStr × Record)) (idx : Index),
      lookupIdx (insertRecords idx recs) k =
        lookupIdx idx k ++
          recs.filterMap (fun kr => if kr.1 = k then some kr.2 else none)
  | [], idx => by simp [insertRecords]
  | (k0, r0) :: rest, idx => by
    have ih := lookupIdx_insertRecords k rest (appendRecord idx k0 r0)
    have hstep : insertRecords idx ((k0, r0) :: rest) =
        insertRecords (appendRecord idx k0 r0) rest := rfl
    rw [hstep, ih, lookupIdx_appendRecord]
    by_cases h : k0 = k
    · simp [h, List.filterMap_cons]
    · simp [h, List.filterMap_cons]

/-! Concrete fixtures used by counterexamples and witnesses. -/

/-- Record parsed from `goodItem` below. -/
def rtRec : Record :=
  ⟨pys "CVE-2024-1", pys "bad bug", pys "HIGH", some (pys "1.0.0"),
   some (pys "2.0.0")⟩

/-- Well-formed feed entry: one vulnerable CPE match for `openssl` with
bounds `["1.0.0", "2.0.0")`, v3 base severity HIGH, v2 severity MEDIUM. -/
def goodItem : CveItem :=
  { cve := some
      { CVE_data_meta := some { ID := some (pys "CVE-2024-1") },
        description := some
          { description_data := some [{ value := some (pys "bad bug") }] } },
    impact := some
      { baseMetricV3 := some
          { cvssV3 := some { baseSeverity := some (pys "HIGH") } },
        baseMetricV2 := some { severity := some (pys "MEDIUM") } },
    configurations := some
      { nodes := some
          [{ cpe_match := some
              [{ vulnerable := some true,
                 cpe23Uri := some (pys "cpe:2.3:a:vendor:openssl:*"),
                 versionStartIncluding := some (pys "1.0.0"),
                 versionEndExcluding := some (pys "2.0.0") }] }] } }

/-- Index state after merging `[goodItem]` once into an empty index. -/
def idxRT : Index := [(pys "openssl", [rtRec])]

/-- Malformed feed entry: the `ID` key of `CVE_data_meta` is missing, so
`item["cve"]["CVE_data_meta"]["ID"]` raises. -/
def badItem : CveItem :=
  { cve := some { CVE_data_meta := some { ID := none }, description := none },
    impact := none,
    configurations := none }

/-- Well-formed entry whose only CPE identifier has four colon-delimited
fields, so its match is skipped. -/
def shortCpeItem : CveItem :=
  { cve := some
      { CVE_data_meta := some { ID := some (pys "CVE-2024-2") },
        description := some
          { description_data := some [{ value := some (pys "other bug") }] } },
    impact := none,
    configurations := some
      { nodes := some
          [{ cpe_match := some
              [{ vulnerable := some true,
                 cpe23Uri := some (pys "a:b:c:d"),
                 versionStartIncluding := none,
                 versionEndExcluding := none }] }] } }

/-- Stored record whose `version_end` is present but the empty string. -/
def recC1 : Record :=
  ⟨pys "CVE-X", pys "d", pys "HIGH", some (pys "1.0.0"), some []⟩

/-- Index holding `recC1` under the key `"openssl"`. -/
def idxC1 : Index := [(pys "openssl", [recC1])]

/-- Vulnerable CPE match whose identifier has exactly five colon-delimited
fields. -/
def matchC4 : CpeMatch :=
  ⟨some true, some (pys "a:b:c:d:e"), none, none⟩

/-- Impact whose `baseMetricV3` block is present but carries no
`baseSeverity`, while `baseMetricV2` carries severity HIGH. -/
def impactC3 : Impact :=
  { baseMetricV3 := some { cvssV3 := some { baseSeverity := none } },
    baseMetricV2 := some { severity := some (pys "HIGH") } }

/-- Feed entry carrying `impactC3` and one vulnerable `openssl` match. -/
def itemC3 : CveItem :=
  { goodItem with impact := some impactC3 }

/-- Index with a single key unrelated to the queries of the C9 witness. -/
def idxOther : Index :=
  [(pys "zlib", [⟨pys "CVE-Z", pys "z", pys "LOW", none, none⟩])]

/-! Claim theorems. -/

/-- Claim C5 (confirmed): for every pair of input strings the version
comparator returns a value in `{-1, 0, 1}` and never raises an exception
(the result is always `some`). -/
theorem C5_compare_total (a b : PyStr) : ∃ c : Int,
    compareVersions a b = some c ∧ (c = -1 ∨ c = 0 ∨ c = 1) := by
  refine ⟨compareFn a b, compareVersions_eq a b, ?_⟩
  exact cmpLists_mem _ _

/-- Claim C6 (confirmed): a query without a version returns exactly the
records stored under the full lower-cased name key followed by the records
stored under the base key (the name truncated at the first hyphen), in
stored order, projected to `(cve_id, description, severity)`, with no
de-duplication. -/
theorem C6_unversioned_query (idx : Index) (pkg : PyStr) :
    get_cves idx pkg none =
      (lookupIdx idx (pyLower pkg) ++ lookupIdx idx (baseKey pkg)).map
        projRecord := by
  simpa using getCves_entries idx pkg none

/-- Claim C7 (confirmed): the version comparator satisfies
`compare(a, b) == -compare(b, a)` and `compare(v, v) == 0`. -/
theorem C7_compare_antisym :
    (∀ (a b : PyStr),
      compareVersions a b = (compareVersions b a).map (fun c => -c)) ∧
    (∀ (v : PyStr), compareVersions v v = some 0) := by
  constructor
  · intro a b
    rw [compareVersions_eq, compareVersions_eq]
    simp only [Option.map_some']
    simp only [compareFn]
    rw [Nat.max_comm (normParts b).length (normParts a).length]
    exact congrArg some (cmpLists_swap _ _)
  · intro v
    rw [compareVersions_eq]
    have h : compareFn v v = 0 := cmpLists_self _
    rw [h]

/-- Claim C9 (confirmed): a query for a package stored under neither the
full lower-cased key nor the base key returns the empty sequence, with or
without a version. -/
theorem C9_unknown_empty (idx : Index) (pkg : PyStr)
    (version : Option PyStr) (h1 : lookupIdx idx (pyLower pkg) = [])
    (h2 : lookupIdx idx (baseKey pkg) = []) :
    get_cves idx pkg version = [] := by
  rw [getCves_entries]
  cases version <;> simp [h1, h2]

/-- Witness for C9 at a concrete unknown package. -/
theorem C9_witness :
    get_cves idxOther (pys "requests") (some (pys "1.0")) = [] :=
  C9_unknown_empty idxOther (pys "requests") (some (pys "1.0"))
    (by decide) (by decide)

/-- Claim C10 (confirmed): when the queried name has no hyphen, the full
and base keys coincide and the unversioned result is that key's projected
record list concatenated with itself, so every record occurs exactly twice
as often as it is stored. -/
theorem C10_no_hyphen (idx : Index) (pkg : PyStr) (h : '-' ∉ pkg) :
    pyLower pkg = baseKey pkg ∧
    get_cves idx pkg none =
      (lookupIdx idx (pyLower pkg)).map projRecord ++
        (lookupIdx idx (pyLower pkg)).map projRecord ∧
    ∀ t, (get_cves idx pkg none).count t =
      2 * ((lookupIdx idx (pyLower pkg)).map projRecord).count t := by
  have hbase : baseKey pkg = pyLower pkg := by
    unfold baseKey
    apply takeWhile_of_all
    intro x hx
    have hne := pyLower_no_hyphen pkg h x hx
    simpa using hne
  refine ⟨hbase.symm, ?_, ?_⟩
  · rw [getCves_entries]
    simp [hbase]
  · intro t
    rw [getCves_entries]
    simp only [hbase, List.map_append, List.count_append]
    omega

/-- Counterexample to claim C1 as stated: `recC1` is stored under a probed
key and carries the present (empty-string) bound `version_end = ""`, so the
claim's condition `compare(version, version_end) < 0` is false — the claim
demands exclusion — yet the query retains the record, because the code
tests the bound for truthiness and the empty string is falsy. -/
theorem C1_counterexample :
    get_cves idxC1 (pys "openssl-x") (some (pys "1.5.0")) =
      [(pys "CVE-X", pys "d", pys "HIGH")] ∧
    claimKeep (pys "1.5.0") recC1 = false := by
  constructor
  · decide
  · decide

/-- Claim C1 (amended): a stored record under a probed key is retained by a
versioned query if and only if (`version_start` is absent or empty OR
`compare(version, version_start) >= 0`) AND (`version_end` is absent or
empty OR `compare(version, version_end) < 0`); in particular a record with
bounds `["1.0.0", "2.0.0")` is returned for version `"1.5.0"` and not for
`"2.0.0"` or `"0.9.9"`. -/
theorem C1_versioned_range :
    (∀ (idx : Index) (pkg v : PyStr),
      get_cves idx pkg (some v) =
        ((lookupIdx idx (pyLower pkg) ++ lookupIdx idx (baseKey pkg)).filter
          (amendedKeep v)).map projRecord) ∧
    get_cves idxRT (pys "openssl") (some (pys "1.5.0")) =
      [(pys "CVE-2024-1", pys "bad bug", pys "HIGH"),
       (pys "CVE-2024-1", pys "bad bug", pys "HIGH")] ∧
    get_cves idxRT (pys "openssl") (some (pys "2.0.0")) = [] ∧
    get_cves idxRT (pys "openssl") (some (pys "0.9.9")) = [] := by
  refine ⟨fun idx pkg v => ?_, by decide, by decide, by decide⟩
  simpa using getCves_entries idx pkg (some v)

/-- Counterexample to claim C2 as stated: a document whose first entry
lacks the `ID` key makes the whole parse raise (`none`), so the
well-formed second entry's records are lost, while the same well-formed
entry alone parses fine. -/
theorem C2_counterexample :
    parseInto [] [badItem, goodItem] = none ∧
    parseInto [] [goodItem] = some idxRT := by
  constructor
  · decide
  · decide

theorem parseItem_isSome (item : CveItem) (h : hasIdAndDesc item = true) :
    (parseItem item).isSome = true := by
  rcases hcve : item.cve with _ | cveSec
  · simp [hasIdAndDesc, hcve] at h
  · simp only [hasIdAndDesc, hcve, Bool.and_eq_true] at h
    obtain ⟨hmeta, hdesc⟩ := h
    rcases hm : cveSec.CVE_data_meta with _ | meta
    · simp [hm] at hmeta
    · simp only [hm] at hmeta
      rcases hid : meta.ID with _ | cve_id
      · simp [hid] at hmeta
      · rcases hd : cveSec.description with _ | descSec
        · simp [hd] at hdesc
        · simp only [hd] at hdesc
          rcases hdd : descSec.description_data with _ | dd
          · simp [hdd] at hdesc
          · simp only [hdd] at hdesc
            rcases dd with _ | ⟨d0, drest⟩
            · simp at hdesc
            · rcases hv : d0.value with _ | val
              · simp [hv] at hdesc
              · simp [parseItem, hcve, hm, hid, hd, hdd, hv]

/-- Claim C2 (amended): a `cpe_match` whose CPE identifier has too few
colon-delimited segments is skipped without aborting anything, but an entry
missing its CVE id or description raises and aborts the parse of the whole
document; parsing succeeds on every document whose entries all carry an id
and a description, regardless of their CPE identifiers. -/
theorem C2_wellformed_parse (idx : Index) (items : List CveItem)
    (h : ∀ item ∈ items, hasIdAndDesc item = true) :
    (parseInto idx items).isSome = true := by
  induction items generalizing idx with
  | nil => rfl
  | cons item rest ih =>
    have hitem := parseItem_isSome item (h item (by simp))
    rcases hp : parseItem item with _ | recs
    · rw [hp] at hitem
      simp at hitem
    · rw [parseInto, hp]
      exact ih (insertRecords idx recs) (fun i hi => h i (by simp [hi]))

/-- Witness for the amended C2: a document with a well-formed entry and an
entry whose CPE identifier is short parses without raising. -/
theorem C2_witness : (parseInto [] [goodItem, shortCpeItem]).isSome = true :=
  C2_wellformed_parse [] [goodItem, shortCpeItem] (by decide)

/-- Counterexample to claim C3 as stated: an entry whose v3 metric block is
present but lacks `baseSeverity`, while its v2 metric carries severity
`HIGH`, parses to severity `UNKNOWN`, not the v2 value, because the code
branches on presence of the `baseMetricV3` block rather than of the
base-severity field. -/
theorem C3_counterexample :
    itemC3.impact = some impactC3 ∧
    impactC3.baseMetricV2 = some { severity := some (pys "HIGH") } ∧
    severityOf impactC3 = pys "UNKNOWN" ∧
    parseItem itemC3 = some
      [(pys "openssl",
        ⟨pys "CVE-2024-1", pys "bad bug", pys "UNKNOWN", some (pys "1.0.0"),
         some (pys "2.0.0")⟩)] ∧
    pys "UNKNOWN" ≠ pys "HIGH" := by
  refine ⟨by decide, by decide, by decide, by decide, by decide⟩

/-- Claim C3 (amended): the severity is the v3.1 `baseSeverity` when the
`baseMetricV3` block is present and carries that field; `UNKNOWN` when the
`baseMetricV3` block is present without that field (even if a v2 severity
exists); otherwise the v2 severity when the `baseMetricV2` block is present
and carries one; otherwise `UNKNOWN`. -/
theorem C3_severity_preference (impact : Impact) :
    (∀ m3 cv s, impact.baseMetricV3 = some m3 → m3.cvssV3 = some cv →
      cv.baseSeverity = some s → severityOf impact = s) ∧
    (∀ m3, impact.baseMetricV3 = some m3 →
      (m3.cvssV3 = none ∨ ∃ cv, m3.cvssV3 = some cv ∧ cv.baseSeverity = none) →
      severityOf impact = pys "UNKNOWN") ∧
    (∀ m2 s, impact.baseMetricV3 = none → impact.baseMetricV2 = some m2 →
      m2.severity = some s → severityOf impact = s) ∧
    (impact.baseMetricV3 = none →
      (impact.baseMetricV2 = none ∨
        ∃ m2, impact.baseMetricV2 = some m2 ∧ m2.severity = none) →
      severityOf impact = pys "UNKNOWN") := by
  refine ⟨?_, ?_, ?_, ?_⟩
  · intro m3 cv s h3 hcv hs
    simp [severityOf, h3, hcv, hs]
  · intro m3 h3 hcase
    rcases hcase with hnone | ⟨cv, hcv, hs⟩
    · simp [severityOf, h3, hnone]
    · simp [severityOf, h3, hcv, hs]
  · intro m2 s h3 h2 hs
    simp [severityOf, h3, h2, hs]
  · intro h3 hcase
    rcases hcase with hnone | ⟨m2, h2, hs⟩
    · simp [severityOf, h3, hnone]
    · simp [severityOf, h3, h2, hs]

/-- Witness for the amended C3 at a concrete impact with both metric
blocks fully populated: the v3 value wins. -/
theorem C3_witness :
    severityOf
      { baseMetricV3 := some
          { cvssV3 := some { baseSeverity := some (pys "HIGH") } },
        baseMetricV2 := some { severity := some (pys "MEDIUM") } } =
      pys "HIGH" :=
  (C3_severity_preference _).1 _ _ _ rfl rfl rfl

/-- Counterexample to claim C4 as stated: the identifier `"a:b:c:d:e"` has
exactly five colon-delimited fields — not more than five — yet the match
yields a record, because the code requires only more than `CPE_LEN = 4`
fields. -/
theorem C4_counterexample :
    (splitOnChar ':' (pys "a:b:c:d:e")).length = 5 ∧
    recordsOfMatch (pys "CVE-1") (pys "d") (pys "LOW") matchC4 =
      [(pys "e", ⟨pys "CVE-1", pys "d", pys "LOW", none, none⟩)] := by
  constructor
  · decide
  · decide

/-- Claim C4 (amended): a vulnerable `cpe_match` yields a record exactly
when its identifier has more than 4 colon-delimited fields (at least 5),
with the field at index 4, lower-cased, as raw package key; an identifier
with fewer fields yields no record and is skipped, never crashed on. -/
theorem C4_cpe_split (cve_id desc severity : PyStr) (m : CpeMatch)
    (hv : m.vulnerable = some true) :
    (recordsOfMatch cve_id desc severity m ≠ [] ↔
      4 < (splitOnChar ':' (m.cpe23Uri.getD [])).length) ∧
    (∀ k r, (k, r) ∈ recordsOfMatch cve_id desc severity m →
      k = pyLower ((splitOnChar ':' (m.cpe23Uri.getD [])).getD CPE_LEN []) ∧
      r = ⟨cve_id, desc, severity, m.versionStartIncluding,
           m.versionEndExcluding⟩) := by
  unfold recordsOfMatch CPE_LEN
  simp only [hv, if_pos]
  by_cases hlen : 4 < (splitOnChar ':' (m.cpe23Uri.getD [])).length
  · simp [hlen]
  · simp [hlen]

/-- Witness for the amended C4: the five-field identifier of `matchC4`
clears the more-than-4 threshold and yields a record. -/
theorem C4_witness :
    recordsOfMatch (pys "CVE-1") (pys "d") (pys "LOW") matchC4 ≠ [] := by
  have h := C4_cpe_split (pys "CVE-1") (pys "d") (pys "LOW") matchC4 rfl
  exact h.1.mpr (by decide)

/-- Counterexample to claim C8 as stated: `idxRT` already holds the merge
of the one-entry feed `[goodItem]`; merging the same content again does not
leave the key's record sequence unchanged — the record is duplicated. -/
theorem C8_counterexample :
    parseInto [] [goodItem] = some idxRT ∧
    parseInto idxRT [goodItem] = some [(pys "openssl", [rtRec, rtRec])] ∧
    lookupIdx [(pys "openssl", [rtRec, rtRec])] (pys "openssl") ≠
      lookupIdx idxRT (pys "openssl") := by
  refine ⟨by decide, by decide, by decide⟩

/-- Claim C8 (amended): merging a feed's items into the index is not
idempotent; it appends the feed's records again: after any successful
merge, every key's record sequence is its previous sequence extended by
the records the merged items contribute for that key. A year is never
duplicated in practice only because the constructor parses each configured
year exactly once. -/
theorem C8_remerge_appends :
    ∀ (items : List CveItem) (idx idx' : Index),
      parseInto idx items = some idx' →
      ∀ k, lookupIdx idx' k = lookupIdx idx k ++ recordsForKey items k
  | [], idx, idx', h, k => by
    simp only [parseInto, Option.some.injEq] at h
    subst h
    simp [recordsForKey, itemRecords]
  | item :: rest, idx, idx', h, k => by
    simp only [parseInto] at h
    rcases hp : parseItem item with _ | recs
    · rw [hp] at h
      exact absurd h (by simp)
    · rw [hp] at h
      have ih := C8_remerge_appends rest (insertRecords idx recs) idx' h k
      rw [ih, lookupIdx_insertRecords]
      simp only [recordsForKey, List.flatMap_cons, List.filterMap_append,
        itemRecords, hp, Option.getD_some]
      rw [List.append_assoc]

/-- Witness for the amended C8 at the concrete re-merge of `[goodItem]`
into `idxRT`. -/
theorem C8_witness :
    lookupIdx [(pys "openssl", [rtRec, rtRec])] (pys "openssl") =
      lookupIdx idxRT (pys "openssl") ++
        recordsForKey [goodItem] (pys "openssl") :=
  C8_remerge_appends [goodItem] idxRT [(pys "openssl", [rtRec, rtRec])]
    (by decide) (pys "openssl")

/-- Witness for C10 at a concrete hyphen-free query. -/
theorem C10_witness :
    get_cves idxRT (pys "OpenSSL") none =
      (lookupIdx idxRT (pys "openssl")).map projRecord ++
        (lookupIdx idxRT (pys "openssl")).map projRecord := by
  have h := (C10_no_hyphen idxRT (pys "OpenSSL") (by decide)).2.1
  have e : pyLower (pys "OpenSSL") = pys "openssl" := by decide
  rw [e] at h
  exact h

end Pysec
